import Mathlib

/-!
Verification of the Has-Needs protocol core against its specification.

The development shallowly embeds the protocol engine of the repository:
the fact record ("triplet") and its hash (src/App.tsx, class Triplet),
the validation pipeline (ValidationEngine), the quorum consensus
(ConsensusManager), the fact index and its expiry sweep
(HasNeedsProtocol), the jitterbug topology (JitterbugTopology), the mesh
network message dispatch (MeshNetwork) and the mesh router (MeshRouter).
JavaScript objects are modeled by an inductive JSON value type, JS Maps
and Sets by insertion-ordered association lists, and timers by explicit
`now` parameters.  Asynchronous functions in the source contain no real
suspension points relevant to the modeled logic, so they are embedded as
pure functions.
-/

namespace HasNeeds

/-- JSON-like JavaScript values: null, booleans, integral numbers,
strings, arrays and objects (insertion-ordered key/value lists).  The
source only ever stores integral numbers in the hashed fields, so
numbers are `Int`. -/
inductive JVal where
  | jnull : JVal
  | jbool : Bool → JVal
  | jnum : Int → JVal
  | jstr : String → JVal
  | jarr : List JVal → JVal
  | jobj : List (String × JVal) → JVal

/-- JavaScript truthiness of a present value (`undefined` is modeled as
an absent key, i.e. `Option.none` at lookup sites). -/
def truthy : JVal → Bool
  | .jnull => false
  | .jbool b => b
  | .jnum n => n ≠ 0
  | .jstr s => s ≠ ""
  | .jarr _ => true
  | .jobj _ => true

/-- Truthiness of an optional (possibly `undefined`) value. -/
def otruthy : Option JVal → Bool
  | none => false
  | some v => truthy v

/-- First binding of a key in a JS object (JS object keys are unique;
association lists here are built with unique keys). -/
def jget (kvs : List (String × JVal)) (k : String) : Option JVal :=
  (kvs.find? (fun p => p.1 == k)).map (·.2)

/-- The property list `Object.keys(data).sort()` that `_calculateHash`
passes to `JSON.stringify` as its second argument: the seven top-level
field names of the hashed record, in sorted order. -/
def hashKeys : List String :=
  ["context", "creator", "entity", "object", "relation", "timestamp", "version"]

/-- Keep only whitelisted keys of an association list, reordered to the
whitelist order (ECMA-262 `SerializeJSONObject` iterates the
`PropertyList` when one is supplied). -/
def reorderKeys (wl : List String) (kvs : List (String × JVal)) :
    List (String × JVal) :=
  wl.filterMap (fun k => kvs.find? (fun p => p.1 == k))

mutual
/-- Effect of a `JSON.stringify` replacer ARRAY on a value: at every
nesting depth, objects keep only the whitelisted properties, iterated in
whitelist order; arrays and primitives are unaffected.  (Filtering
before or after the recursive descent is equivalent, since the filter
only inspects keys.) -/
def applyReplacer (wl : List String) : JVal → JVal
  | .jnull => .jnull
  | .jbool b => .jbool b
  | .jnum n => .jnum n
  | .jstr s => .jstr s
  | .jarr xs => .jarr (applyReplacerArr wl xs)
  | .jobj kvs => .jobj (reorderKeys wl (applyReplacerObj wl kvs))

/-- `applyReplacer` mapped over array elements. -/
def applyReplacerArr (wl : List String) : List JVal → List JVal
  | [] => []
  | x :: xs => applyReplacer wl x :: applyReplacerArr wl xs

/-- `applyReplacer` mapped over object values. -/
def applyReplacerObj (wl : List String) :
    List (String × JVal) → List (String × JVal)
  | [] => []
  | (k, v) :: kvs => (k, applyReplacer wl v) :: applyReplacerObj wl kvs
end

mutual
/-- Plain JSON serialization of a value (the values occurring in this
development need no character escaping). -/
def serVal : JVal → String
  | .jnull => "null"
  | .jbool true => "true"
  | .jbool false => "false"
  | .jnum n => toString n
  | .jstr s => "\"" ++ s ++ "\""
  | .jarr xs => "[" ++ serArr xs ++ "]"
  | .jobj kvs => "\x7b" ++ serObj kvs ++ "\x7d"

/-- Comma-separated serialization of array elements. -/
def serArr : List JVal → String
  | [] => ""
  | [x] => serVal x
  | x :: y :: xs => serVal x ++ "," ++ serArr (y :: xs)

/-- Comma-separated serialization of object members. -/
def serObj : List (String × JVal) → String
  | [] => ""
  | [(k, v)] => "\"" ++ k ++ "\":" ++ serVal v
  | (k, v) :: p :: kvs =>
      "\"" ++ k ++ "\":" ++ serVal v ++ "," ++ serObj (p :: kvs)
end

/-- `JSON.stringify(v, wl)` with a replacer array `wl`. -/
def stringifyWith (wl : List String) (v : JVal) : String :=
  serVal (applyReplacer wl v)

/-- An asymmetric signature, abstracting node `crypto`
`createSign`/`createVerify`: signing with a private key yields an object
that verifies exactly against the corresponding public key and the
signed payload. -/
structure Sig where
  pubkey : String
  payload : String
deriving DecidableEq

/-- The fact record (class `Triplet` of src/App.tsx).  `id`, `relation`,
`creator`, `version` and `hash` are strings in every code path;
`entity`, `object` and `context` are arbitrary JS values (`context`
always an object). -/
structure Triplet where
  id : String
  entity : JVal
  relation : String
  object : JVal
  context : List (String × JVal)
  creator : String
  timestamp : Int
  version : String
  hash : String
  signature : Option Sig
  validated : Bool
  consensus : Bool

namespace Triplet

/-- The record `{entity, relation, object, context, creator, timestamp,
version}` built by `_calculateHash`, in its insertion order. -/
def hashData (t : Triplet) : JVal :=
  .jobj [("entity", t.entity), ("relation", .jstr t.relation),
         ("object", t.object), ("context", .jobj t.context),
         ("creator", .jstr t.creator), ("timestamp", .jnum t.timestamp),
         ("version", .jstr t.version)]

/-- `Triplet._calculateHash`: the SHA-256 hex digest of
`JSON.stringify(data, Object.keys(data).sort())`.  The digest itself is
modeled by the serialized string (an injective stand-in for the hash
function). -/
def calculateHash (t : Triplet) : String :=
  stringifyWith hashKeys (hashData t)

/-- `Triplet.updateHash`: recompute and store the hash. -/
def updateHash (t : Triplet) : Triplet :=
  { t with hash := calculateHash t }

/-- `Triplet.verifyHash`: recompute the hash and compare with the stored
one. -/
def verifyHash (t : Triplet) : Bool :=
  t.hash == calculateHash t

end Triplet

/-- `field && field < now` on an optional context field.  The source
only ever stores numbers in these positions, so the JS numeric coercion
of other truthy values is not modeled: non-numeric values compare
false. -/
def truthyNumLt : Option JVal → Int → Bool
  | some (.jnum e), now => e ≠ 0 && e < now
  | _, _ => false

namespace Triplet

/-- `Triplet.isExpired` (src/App.tsx): expired when `context.expires` or
`context.validUntil` is truthy and numerically below `now`. -/
def isExpired (now : Int) (t : Triplet) : Bool :=
  truthyNumLt (jget t.context "expires") now ||
  truthyNumLt (jget t.context "validUntil") now

end Triplet

/-- A concrete `needs` fact shaped like the ones `HasNeedsProtocol.createNeed`
builds (`context` carries `timestamp`, `urgency` and `expires`), with its
hash computed exactly as the constructor computes it. -/
def tripletNested : Triplet :=
  Triplet.updateHash
    { id := "need-water-001", entity := .jstr "alice", relation := "needs",
      object := .jstr "water",
      context := [("timestamp", .jnum 50), ("urgency", .jstr "high"),
                  ("expires", .jnum 99)],
      creator := "node-a", timestamp := 50, version := "1.0.0", hash := "",
      signature := none, validated := false, consensus := false }

/-- `tripletNested` after mutating the nested context values `urgency`
and `expires` WITHOUT recomputing the hash. -/
def tripletNestedMut : Triplet :=
  { tripletNested with
    context := [("timestamp", .jnum 50), ("urgency", .jstr "low"),
                ("expires", .jnum 1)] }

/-! ## Consensus Manager
Embeds the decision logic of `ConsensusManager._checkConsensusReached`
(src/protocol/src/protocol/consensus/index.js).  A consensus round is
its status plus the recorded votes (a map validatorId → vote.valid);
timing fields (`startTime`, `endTime`) and the timeout path are outside
the claims and elided.  -/

namespace Consensus

/-- The statuses `_checkConsensusReached` handles or assigns. -/
inductive CStatus where
  | pending
  | accepted
  | rejected
deriving DecidableEq, Repr

/-- The per-round consensus state: `status` and the recorded votes
(`consensusState.votes`, one entry per validator). -/
structure ConsensusState where
  status : CStatus
  votes : List (String × Bool)

/-- The positive-vote count loop of `_checkConsensusReached`. -/
def positiveVotes (votes : List (String × Bool)) : ℕ :=
  (votes.filter (·.2)).length

/-- `agreement = positiveVotes / totalVotes` (exact rational arithmetic;
the JS doubles agree with ℚ on every comparison below). -/
def agreementOf (cs : ConsensusState) : ℚ :=
  (positiveVotes cs.votes : ℚ) / (cs.votes.length : ℚ)

/-- `ConsensusManager._checkConsensusReached`: on a pending round with
at least `minValidators` votes, accept when `agreement >= threshold`,
reject when `agreement < 1 - threshold`, otherwise keep waiting. -/
def checkConsensusReached (threshold : ℚ) (minValidators : ℕ)
    (cs : ConsensusState) : ConsensusState :=
  if cs.status ≠ .pending then cs
  else
    let totalVotes := cs.votes.length
    if totalVotes < minValidators then cs
    else
      let agreement : ℚ := (positiveVotes cs.votes : ℚ) / (totalVotes : ℚ)
      if threshold ≤ agreement then { cs with status := .accepted }
      else if agreement < 1 - threshold then { cs with status := .rejected }
      else cs

/-- 2 positive + 1 negative votes. -/
def votes21 : ConsensusState :=
  ⟨.pending, [("v1", true), ("v2", true), ("v3", false)]⟩

/-- 3 positive votes. -/
def votes30 : ConsensusState :=
  ⟨.pending, [("v1", true), ("v2", true), ("v3", true)]⟩

/-- 0 positive + 3 negative votes. -/
def votes03 : ConsensusState :=
  ⟨.pending, [("v1", false), ("v2", false), ("v3", false)]⟩

/-- A round with 33 positive and 67 negative votes: agreement is exactly
`33/100 = 1 - 0.67`. -/
def votesBoundary : ConsensusState :=
  ⟨.pending, (List.range 100).map (fun i => ("v" ++ toString i, decide (i < 33)))⟩

end Consensus

/-! ## Validation Engine
Embeds the five-stage pipeline of `ValidationEngine` (protocol
validation module).  The engine state that the default rules consult is
the local identity (node id and key pair), the revocation list and the
key set of the protocol's fact index `protocol.triplets`; `Date.now()`
and the configured `maxTripletAge` are explicit parameters.  Signing is
the abstract `sign/verify` capability: a signature produced with the
node's private key verifies exactly against the node's public key and
the signed payload. -/

namespace Validation

open Triplet

/-- The validation engine's environment: local identity, revocation
list, the ids stored in the protocol's fact index, and the clock. -/
structure VEnv where
  nodeId : String
  publicKey : String
  revokedKeys : List String
  tripletIds : List String
  now : Int
  maxTripletAge : Int

/-- `validRelations` of `_validateStructure`. -/
def validRelations : List String := ["has", "needs", "committed"]

/-- `ValidationEngine._validateStructure`: required fields present,
relation valid, id a string of length ≥ 10, timestamp a positive
integer, context an object.  String/number/object typing of `id`,
`relation`, `creator`, `timestamp` and `context` is enforced by the
embedding's types; `entity` and `object` are arbitrary values checked
against null (`undefined` is not representable for a typed field). -/
def validateStructure (t : Triplet) : Bool :=
  (match t.entity with | .jnull => false | _ => true) &&
  (match t.object with | .jnull => false | _ => true) &&
  validRelations.contains t.relation &&
  (t.id.length ≥ 10) &&
  (t.timestamp > 0)

/-- `_validateNeedObject`: `typeof obj` must be `'string'` or
`'object'` (arrays and `null` are `'object'` in JS). -/
def validateNeedObject : JVal → Bool
  | .jstr _ => true
  | .jobj _ => true
  | .jarr _ => true
  | .jnull => true
  | _ => false

/-- `_validateHasObject`: same shape check as for needs. -/
def validateHasObject : JVal → Bool
  | .jstr _ => true
  | .jobj _ => true
  | .jarr _ => true
  | .jnull => true
  | _ => false

/-- `_validateCommittedObject`: the object must be an object with a
truthy `agreement` whose `validUntil` is a truthy integer.  (A truthy
non-object `agreement` has no `validUntil` and fails; accessing a
property of `null` throws, which the pipeline catches as failure.) -/
def validateCommittedObject : JVal → Bool
  | .jobj kvs =>
    match jget kvs "agreement" with
    | some (.jobj akvs) =>
      match jget akvs "validUntil" with
      | some (.jnum v) => v ≠ 0
      | _ => false
    | _ => false
  | _ => false

/-- `ValidationEngine._validateSemantics`: entity is a non-empty string,
or a non-empty array allowed only for the `committed` relation; then the
object shape is checked per relation. -/
def validateSemantics (t : Triplet) : Bool :=
  (match t.entity with
   | .jstr s => s ≠ ""
   | .jarr xs => !xs.isEmpty && t.relation == "committed"
   | _ => false) &&
  (if t.relation == "needs" then validateNeedObject t.object
   else if t.relation == "has" then validateHasObject t.object
   else if t.relation == "committed" then validateCommittedObject t.object
   else false)

/-- `ValidationEngine._getPublicKey`: the local node's key for itself,
`null` for every other node ("For now, return null for other nodes"). -/
def getPublicKey (env : VEnv) (nodeId : String) : Option String :=
  if nodeId == env.nodeId then some env.publicKey else none

/-- `ValidationEngine._verifySignature`: no signature verifies
trivially; otherwise the creator's public key is looked up (its absence
throws, caught as `false`) and the signature is verified against the
triplet hash. -/
def verifySignatureB (env : VEnv) (t : Triplet) : Bool :=
  match t.signature with
  | none => true
  | some s =>
    match getPublicKey env t.creator with
    | none => false
    | some pk => s.pubkey == pk && s.payload == t.hash

/-- `ValidationEngine._validateCryptography`: hash integrity, then
signature verification when a signature is present. -/
def validateCryptography (env : VEnv) (t : Triplet) : Bool :=
  t.verifyHash &&
  (match t.signature with
   | none => true
   | some _ => verifySignatureB env t)

/-- `ValidationEngine._validateLocation`: non-empty string, or an
object with both `lat` and `lng` finite numbers in range.  (The source
admits fractional coordinates; the claims only need integral ones.) -/
def validateLocation : JVal → Bool
  | .jstr s => s ≠ ""
  | .jobj kvs =>
    (match jget kvs "lat", jget kvs "lng" with
     | some (.jnum la), some (.jnum ln) =>
       -90 ≤ la && la ≤ 90 && -180 ≤ ln && ln ≤ 180
     | _, _ => false)
  | _ => false

/-- `ValidationEngine._validateContext`: timestamp at most one minute in
the future and not older than `maxTripletAge`; a truthy `expires` must
be an integer strictly after the timestamp; a truthy `location` must be
well-formed. -/
def validateContext (env : VEnv) (t : Triplet) : Bool :=
  (t.timestamp ≤ env.now + 60000) &&
  (env.now - env.maxTripletAge ≤ t.timestamp) &&
  (match jget t.context "expires" with
   | none => true
   | some e =>
     if truthy e then
       match e with
       | .jnum v => t.timestamp < v
       | _ => false
     else true) &&
  (match jget t.context "location" with
   | none => true
   | some l => if truthy l then validateLocation l else true)

/-- `ValidationEngine._validateResourceAvailability`:
`context.availability !== 'unavailable'`. -/
def validateResourceAvailability (t : Triplet) : Bool :=
  match jget t.context "availability" with
  | some (.jstr s) => s != "unavailable"
  | _ => true

/-- The default `uniqueness` rule: the triplet id must not already be a
key of the protocol's fact index. -/
def ruleUniqueness (env : VEnv) (t : Triplet) : Bool :=
  !(env.tripletIds.contains t.id)

/-- The default `temporal` rule: when both `context.expires` and
`context.validUntil` are truthy, `expires ≤ validUntil` (numeric fields
in every code path). -/
def ruleTemporal (t : Triplet) : Bool :=
  match jget t.context "expires", jget t.context "validUntil" with
  | some e, some v =>
    if truthy e && truthy v then
      match e, v with
      | .jnum en, .jnum vn => en ≤ vn
      | _, _ => false
    else true
  | _, _ => true

/-- `ValidationEngine._validateBusinessRules`: entity permissions and
rate limiting always pass in the source; `has` facts require resource
availability; then the default rule registry (uniqueness, temporal). -/
def validateBusinessRules (env : VEnv) (t : Triplet) : Bool :=
  (if t.relation == "has" then validateResourceAvailability t else true) &&
  ruleUniqueness env t && ruleTemporal t

/-- `ValidationEngine._signTriplet`: sign the triplet hash with the
local private key (abstractly: a signature that verifies against the
local public key over the hash). -/
def signTriplet (env : VEnv) (t : Triplet) : Triplet :=
  { t with signature := some ⟨env.publicKey, t.hash⟩ }

/-- `ValidationEngine.validateTriplet`: the five stages short-circuit on
first failure; on success the triplet is signed when locally created and
unsigned, and `validated` is set.  Returns the result together with the
(possibly mutated) triplet. -/
def validateTriplet (env : VEnv) (t : Triplet) : Bool × Triplet :=
  if validateStructure t && validateSemantics t &&
      validateCryptography env t && validateContext env t &&
      validateBusinessRules env t then
    let t1 := if t.creator == env.nodeId && t.signature.isNone then
        signTriplet env t
      else t
    (true, { t1 with validated := true })
  else (false, t)

/-- `ValidationEngine._validatePeerSignature`: the claimed creator must
be the sending peer and the signature must verify. -/
def validatePeerSignature (env : VEnv) (t : Triplet) (peerId : String) :
    Bool :=
  t.creator == peerId && verifySignatureB env t

/-- `ValidationEngine._validatePeerReputation`: the sending peer is not
on the revocation list. -/
def validatePeerReputation (env : VEnv) (peerId : String) : Bool :=
  !(env.revokedKeys.contains peerId)

/-- `ValidationEngine.validatePeerTriplet`: standard validation (with
its side effects on the triplet), then peer signature and reputation. -/
def validatePeerTriplet (env : VEnv) (t : Triplet) (peerId : String) :
    Bool :=
  let r := validateTriplet env t
  r.1 && validatePeerSignature env r.2 peerId &&
    validatePeerReputation env peerId

/-- The entity list `_validateMultiPartyAgreement` builds: the entity
array, or the singleton of a non-array entity. -/
def entityCount (t : Triplet) : ℕ :=
  match t.entity with
  | .jarr xs => xs.length
  | _ => 1

/-- `ValidationEngine._validateMultiPartyAgreement`: at least two
parties. -/
def validateMultiPartyAgreement (t : Triplet) : Bool :=
  entityCount t ≥ 2

/-- `ValidationEngine._validateEscrow`: escrow must declare both
`conditions` and `releaseConditions` (a non-object escrow has neither;
property access on `null` throws, caught as failure). -/
def validateEscrow : JVal → Bool
  | .jobj kvs =>
    otruthy (jget kvs "conditions") &&
    otruthy (jget kvs "releaseConditions")
  | _ => false

/-- `ValidationEngine.validateCommittedTriplet`: standard validation,
all referenced triplets already validated, the multi-party agreement
check, and escrow conditions when a truthy `context.escrow` exists. -/
def validateCommittedTriplet (env : VEnv) (t : Triplet)
    (refs : List Triplet) : Bool :=
  (validateTriplet env t).1 &&
  refs.all (·.validated) &&
  validateMultiPartyAgreement t &&
  (match jget t.context "escrow" with
   | none => true
   | some e => if truthy e then validateEscrow e else true)

/-- A validation environment for the local node `node-local`, with an
empty fact index, default `maxTripletAge` (30 days in ms) and a fixed
clock. -/
def envLocal : VEnv :=
  { nodeId := "node-local", publicKey := "pk-local", revokedKeys := [],
    tripletIds := [], now := 1000000, maxTripletAge := 2592000000 }

/-- `envLocal` after the fact `need-00000001` has been stored in the
protocol's fact index. -/
def envIndexed : VEnv := { envLocal with tripletIds := ["need-00000001"] }

/-- A well-formed `needs` fact created by the local node, hash computed
by the constructor. -/
def needLocal : Triplet :=
  Triplet.updateHash
    { id := "need-00000001", entity := .jstr "alice", relation := "needs",
      object := .jstr "water",
      context := [("timestamp", .jnum 1000000), ("urgency", .jstr "high")],
      creator := "node-local", timestamp := 1000000, version := "1.0.0",
      hash := "", signature := none, validated := false, consensus := false }

/-- A well-formed `committed` fact whose entity is a SINGLE identifier
(a lone string, not a set of two). -/
def committedSingle : Triplet :=
  Triplet.updateHash
    { id := "committed-000001", entity := .jstr "alice",
      relation := "committed",
      object := .jobj [("need", .jstr "need-00000001"),
                       ("has", .jstr "has-000000001"),
                       ("agreement", .jobj [("terms", .jobj []),
                          ("validUntil", .jnum 2000000)])],
      context := [("timestamp", .jnum 1000000)],
      creator := "node-local", timestamp := 1000000, version := "1.0.0",
      hash := "", signature := none, validated := false, consensus := false }

/-- A fact created by a remote peer that carries a signature. -/
def signedRemote : Triplet :=
  Triplet.updateHash
    { id := "need-00000002", entity := .jstr "bob", relation := "needs",
      object := .jstr "shelter",
      context := [("timestamp", .jnum 1000000)],
      creator := "peer-remote", timestamp := 1000000, version := "1.0.0",
      hash := "", signature := some ⟨"pk-remote", "irrelevant"⟩,
      validated := false, consensus := false }

end Validation

/-! ## Protocol fact index
Embeds the fact index of `HasNeedsProtocol`
(src/protocol/src/protocol/consensus/index.js, second module) and its
periodic expiry sweep `_cleanupExpiredTriplets`. -/

namespace Protocol

/-- The protocol's in-memory fact index: the id-keyed map `triplets`
and the three relation partitions (JS Maps as insertion-ordered
association lists with unique keys). -/
structure ProtocolState where
  triplets : List (String × Triplet)
  needs : List (String × Triplet)
  has : List (String × Triplet)
  committed : List (String × Triplet)

/-- The needs-sweep condition of `_cleanupExpiredTriplets`:
`triplet.context.expires && triplet.context.expires < now`. -/
def needExpired (now : Int) (t : Triplet) : Bool :=
  truthyNumLt (jget t.context "expires") now

/-- The committed-sweep condition of `_cleanupExpiredTriplets`:
`triplet.object.agreement.validUntil < now`.  A missing or non-numeric
`validUntil` is `undefined`, whose comparison is false; facts stored by
the pipeline always carry a numeric one. -/
def committedExpired (now : Int) (t : Triplet) : Bool :=
  match t.object with
  | .jobj kvs =>
    (match jget kvs "agreement" with
     | some (.jobj akvs) =>
       (match jget akvs "validUntil" with
        | some (.jnum v) => v < now
        | _ => false)
     | _ => false)
  | _ => false

/-- `HasNeedsProtocol._cleanupExpiredTriplets`: iterate the needs
partition, deleting every expired need from both the partition and the
id-keyed map; then likewise for expired committed facts.  (Deleting the
entry being visited while iterating a JS Map is safe and equivalent to
filtering.)  The `has` partition is not visited by the source. -/
def cleanupExpiredTriplets (now : Int) (p : ProtocolState) :
    ProtocolState :=
  let expiredNeedIds :=
    (p.needs.filter (fun pr => needExpired now pr.2)).map (·.1)
  let p1 : ProtocolState :=
    { p with
      needs := p.needs.filter (fun pr => !(needExpired now pr.2)),
      triplets :=
        p.triplets.filter (fun pr => !(expiredNeedIds.contains pr.1)) }
  let expiredCommittedIds :=
    (p1.committed.filter (fun pr => committedExpired now pr.2)).map (·.1)
  { p1 with
    committed :=
      p1.committed.filter (fun pr => !(committedExpired now pr.2)),
    triplets :=
      p1.triplets.filter (fun pr => !(expiredCommittedIds.contains pr.1)) }

/-- A `has` fact whose `context.expires` elapsed before `now = 1000`. -/
def expiredHas : Triplet :=
  Triplet.updateHash
    { id := "has-expired-001", entity := .jstr "carol", relation := "has",
      object := .jstr "tent",
      context := [("timestamp", .jnum 10), ("expires", .jnum 500),
                  ("availability", .jstr "available")],
      creator := "node-local", timestamp := 10, version := "1.0.0",
      hash := "", signature := none, validated := true, consensus := false }

/-- A `needs` fact whose `context.expires` elapsed before `now = 1000`. -/
def expiredNeed : Triplet :=
  Triplet.updateHash
    { id := "need-expired-01", entity := .jstr "dave", relation := "needs",
      object := .jstr "water",
      context := [("timestamp", .jnum 10), ("expires", .jnum 400)],
      creator := "node-local", timestamp := 10, version := "1.0.0",
      hash := "", signature := none, validated := true, consensus := false }

/-- An index holding one expired need and one expired has fact. -/
def stateWithExpired : ProtocolState :=
  { triplets := [("need-expired-01", expiredNeed),
                 ("has-expired-001", expiredHas)],
    needs := [("need-expired-01", expiredNeed)],
    has := [("has-expired-001", expiredHas)],
    committed := [] }

end Protocol

/-! ## Jitterbug Topology
Embeds `JitterbugTopology` (src/src/network/topology/index.js): cluster
and connection maps, the contracted/expanded/transitioning state
machine, peer integration and the adaptation tick.  JS `Map`s and
`Set`s are insertion-ordered association lists / string lists with
unique keys; `Math.random()` draws are an explicit oracle list consumed
in evaluation order; `Date.now()` cluster-id suffixes are an explicit
fresh tag. -/

namespace Topo

/-- `TOPOLOGY_STATES`. -/
inductive TState where
  | contracted
  | expanded
  | transitioning
deriving DecidableEq, Repr

/-- A cluster record: id, member peer set, center, load estimate, and
the set of ids of its inter-cluster connections. -/
structure Cluster where
  id : String
  peers : List String
  center : String
  load : ℚ
  connections : List String

/-- A connection record: id, type (`cluster`/`inter-cluster`/`direct`),
referenced cluster ids (empty for peer-level connections, whose JS
`clusters` field is undefined) and endpoint peers. -/
structure Connection where
  id : String
  ctype : String
  clusters : List String
  peers : List String

/-- The topology configuration (constructor defaults:
baseClusterSize 6, expansionThreshold 0.8, contractionThreshold 0.3,
maxConnections 20, redundancyFactor 3). -/
structure TopoConfig where
  nodeId : String
  baseClusterSize : ℕ
  expansionThreshold : ℚ
  contractionThreshold : ℚ
  maxConnections : ℕ
  redundancyFactor : ℕ

/-- The topology state: current/target jitterbug state and the cluster
and connection maps. -/
structure Topology where
  currentState : TState
  targetState : TState
  clusters : List (String × Cluster)
  connections : List (String × Connection)
  localClusterId : String

/-- JS `Map.has`. -/
def mapHas {α : Type} (m : List (String × α)) (k : String) : Bool :=
  m.any (fun p => p.1 == k)

/-- JS `Map.get` (first binding; keys are unique). -/
def mapGet {α : Type} (m : List (String × α)) (k : String) : Option α :=
  (m.find? (fun p => p.1 == k)).map (·.2)

/-- JS `Map.set`: update in place keeping the key's position, or append
a new binding. -/
def mapSet {α : Type} (m : List (String × α)) (k : String) (v : α) :
    List (String × α) :=
  if m.any (fun p => p.1 == k) then
    m.map (fun p => if p.1 == k then (p.1, v) else p)
  else m ++ [(k, v)]

/-- JS `Map.delete`. -/
def mapDelete {α : Type} (m : List (String × α)) (k : String) :
    List (String × α) :=
  m.filter (fun p => !(p.1 == k))

/-- JS `Set.add` (no-op on an existing element, append otherwise). -/
def setAdd (s : List String) (x : String) : List String :=
  if s.contains x then s else s ++ [x]

/-- JS `Set.delete`. -/
def setDelete (s : List String) (x : String) : List String :=
  s.filter (fun y => !(y == x))

/-- Mutate the cluster object stored under `cid` (JS mutates the shared
object referenced by the map). -/
def updateCluster (t : Topology) (cid : String) (f : Cluster → Cluster) :
    Topology :=
  { t with clusters :=
      t.clusters.map (fun p => if p.1 == cid then (p.1, f p.2) else p) }

/-- The connection-set size of a cluster (0 for a missing id; the
source always passes existing clusters). -/
def clusterConnCount (t : Topology) (cid : String) : ℕ :=
  match mapGet t.clusters cid with
  | some c => c.connections.length
  | none => 0

/-- `_createClusterConnection`: deterministic id `conn_<c1>_<c2>`; no-op
when that id already exists; otherwise register an `inter-cluster`
connection between the cluster centers and add its id to BOTH clusters'
connection sets (no capacity check on either). -/
def createClusterConnection (t : Topology) (c1Id c2Id : String) :
    Topology :=
  let connectionId := "conn_" ++ c1Id ++ "_" ++ c2Id
  if mapHas t.connections connectionId then t
  else
    match mapGet t.clusters c1Id, mapGet t.clusters c2Id with
    | some c1, some c2 =>
      let conn : Connection :=
        { id := connectionId, ctype := "inter-cluster",
          clusters := [c1Id, c2Id], peers := [c1.center, c2.center] }
      let t1 := { t with
        connections := mapSet t.connections connectionId conn }
      let t2 := updateCluster t1 c1Id (fun c =>
        { c with connections := setAdd c.connections connectionId })
      updateCluster t2 c2Id (fun c =>
        { c with connections := setAdd c.connections connectionId })
    | _, _ => t

/-- `_createConnection` (peer-level, type `cluster` or `direct`): only
registered in the connection map, never in cluster connection sets. -/
def createConnection (t : Topology) (p1 p2 ctype : String) : Topology :=
  let connectionId := "conn_" ++ p1 ++ "_" ++ p2
  if mapHas t.connections connectionId then t
  else
    let conn : Connection :=
      { id := connectionId, ctype := ctype, clusters := [],
        peers := [p1, p2] }
    { t with connections := mapSet t.connections connectionId conn }

/-- `_calculateNetworkLoad`: mean per-cluster load, 0 for no clusters. -/
def calculateNetworkLoad (t : Topology) : ℚ :=
  if t.clusters.isEmpty then 0
  else (t.clusters.map (fun p => p.2.load)).sum / (t.clusters.length : ℚ)

/-- All ordered index pairs `i < j` of a list, in the double-loop order
of `_createExpansionConnections`. -/
def orderedPairs : List String → List (String × String)
  | [] => []
  | x :: xs => xs.map (fun y => (x, y)) ++ orderedPairs xs

/-- One inner-loop iteration of `_createExpansionConnections`: create
the connection when its id is absent and the FIRST cluster (only) is
below `maxConnections`. -/
def expansionStep (cfg : TopoConfig) (t : Topology)
    (pr : String × String) : Topology :=
  let connectionId := "conn_" ++ pr.1 ++ "_" ++ pr.2
  if !(mapHas t.connections connectionId) &&
      clusterConnCount t pr.1 < cfg.maxConnections then
    createClusterConnection t pr.1 pr.2
  else t

/-- `_createExpansionConnections`: the double loop over the cluster
list captured at entry (cluster objects are shared, so sizes are read
live). -/
def createExpansionConnections (cfg : TopoConfig) (t : Topology) :
    Topology :=
  (orderedPairs (t.clusters.map (·.1))).foldl (expansionStep cfg) t

/-- `_isConnectionRedundant`: an inter-cluster connection between two
existing clusters is redundant when both keep more than
`redundancyFactor` connections. -/
def isConnectionRedundant (cfg : TopoConfig) (t : Topology)
    (conn : Connection) : Bool :=
  match conn.clusters with
  | c1Id :: c2Id :: _ =>
    (match mapGet t.clusters c1Id, mapGet t.clusters c2Id with
     | some c1, some c2 =>
       c1.connections.length > cfg.redundancyFactor &&
       c2.connections.length > cfg.redundancyFactor
     | _, _ => false)
  | _ => false

/-- Removal loop body of `_removeExcessConnections`: drop the
connection id from every referenced cluster's set, then from the map. -/
def removeConnectionEverywhere (t : Topology) (connId : String) :
    Topology :=
  let t1 := match mapGet t.connections connId with
    | some conn =>
      conn.clusters.foldl (fun acc cid =>
        updateCluster acc cid (fun c =>
          { c with connections := setDelete c.connections connId })) t
    | none => t
  { t1 with connections := mapDelete t1.connections connId }

/-- `_removeExcessConnections`: collect the redundant inter-cluster
connections against the entry state, then remove them. -/
def removeExcessConnections (cfg : TopoConfig) (t : Topology) :
    Topology :=
  let toRemove := (t.connections.filter (fun pr =>
    pr.2.ctype == "inter-cluster" &&
    isConnectionRedundant cfg t pr.2)).map (·.1)
  toRemove.foldl removeConnectionEverywhere t

/-- `_initiateExpansion`: no-op when already expanded or transitioning;
otherwise pass through `transitioning`, add expansion connections, and
finish `expanded` — all within the call.  Also returns the sequence of
states assigned to `currentState`. -/
def initiateExpansion (cfg : TopoConfig) (t : Topology) :
    Topology × List TState :=
  if t.currentState = .expanded ∨ t.currentState = .transitioning then
    (t, [])
  else
    let t1 := { t with currentState := .transitioning,
                       targetState := .expanded }
    let t2 := createExpansionConnections cfg t1
    ({ t2 with currentState := .expanded },
      [.transitioning, .expanded])

/-- `_initiateContraction`: the dual of expansion. -/
def initiateContraction (cfg : TopoConfig) (t : Topology) :
    Topology × List TState :=
  if t.currentState = .contracted ∨ t.currentState = .transitioning then
    (t, [])
  else
    let t1 := { t with currentState := .transitioning,
                       targetState := .contracted }
    let t2 := removeExcessConnections cfg t1
    ({ t2 with currentState := .contracted },
      [.transitioning, .contracted])

/-- `_updateTopologyConnections` (the adaptation tick): expand when the
mean load exceeds the expansion threshold while contracted, contract
when it falls below the contraction threshold while expanded. -/
def updateTopologyConnections (cfg : TopoConfig) (t : Topology) :
    Topology × List TState :=
  let currentLoad := calculateNetworkLoad t
  if currentLoad > cfg.expansionThreshold ∧
      t.currentState = .contracted then
    initiateExpansion cfg t
  else if currentLoad < cfg.contractionThreshold ∧
      t.currentState = .expanded then
    initiateContraction cfg t
  else (t, [])

/-- The successive values of `currentState` during one adaptation tick,
starting with the entry state. -/
def adaptationTrace (cfg : TopoConfig) (t : Topology) : List TState :=
  t.currentState :: (updateTopologyConnections cfg t).2

/-- `_calculateClusterScore`: idle capacity, remaining slots and a
random component (the random draw is the explicit `rand` argument). -/
def calculateClusterScore (cfg : TopoConfig) (c : Cluster) (rand : ℚ) :
    ℚ :=
  max 0 (1 - c.load) * 40 +
  (((cfg.baseClusterSize : ℚ) - (c.peers.length : ℚ)) /
    (cfg.baseClusterSize : ℚ)) * 30 +
  rand * 30

/-- `_findOptimalCluster`: scan the cluster map, skip full clusters,
keep the best score (strictly improving over the initial −1); one
random draw is consumed per scored cluster. -/
def findOptimalCluster (cfg : TopoConfig) (t : Topology)
    (rands : List ℚ) : Option String :=
  (t.clusters.foldl (fun (acc : Option String × ℚ × List ℚ) pr =>
    if pr.2.peers.length ≥ cfg.baseClusterSize then acc
    else
      let score := calculateClusterScore cfg pr.2 (acc.2.2.headD 0)
      if score > acc.2.1 then (some pr.1, score, acc.2.2.tail)
      else (acc.1, acc.2.1, acc.2.2.tail)) (none, -1, rands)).1

/-- `_addPeerToCluster`: add the peer to the cluster's set, then create
peer-level `cluster` connections to every other member. -/
def addPeerToCluster (t : Topology) (peer : String) (cid : String) :
    Topology :=
  let t1 := updateCluster t cid (fun c =>
    { c with peers := setAdd c.peers peer })
  match mapGet t1.clusters cid with
  | some c =>
    (c.peers.filter (fun p => !(p == peer))).foldl
      (fun acc other => createConnection acc peer other "cluster") t1
  | none => t1

/-- `_connectClusterToTopology`: connect the new cluster to the first
`redundancyFactor` other clusters in map order. -/
def connectClusterToTopology (cfg : TopoConfig) (t : Topology)
    (newId : String) : Topology :=
  let nearby := ((t.clusters.map (·.1)).filter
    (fun i => !(i == newId))).take cfg.redundancyFactor
  nearby.foldl (fun acc cid =>
    if mapHas acc.clusters cid then createClusterConnection acc newId cid
    else acc) t

/-- `_handleClusterFormation`: create a singleton cluster
`cluster_<peer>_<Date.now()>` and attach it to the topology. -/
def handleClusterFormation (cfg : TopoConfig) (t : Topology)
    (peer : String) (freshTag : String) : Topology :=
  let newId := "cluster_" ++ peer ++ "_" ++ freshTag
  let newCluster : Cluster :=
    { id := newId, peers := [peer], center := peer, load := 0,
      connections := [] }
  let t1 := { t with clusters := mapSet t.clusters newId newCluster }
  connectClusterToTopology cfg t1 newId

/-- The peer-placement part of `handlePeerConnect` (before the
adaptation tick). -/
def integratePeer (cfg : TopoConfig) (t : Topology) (peer : String)
    (rands : List ℚ) (freshTag : String) : Topology :=
  match findOptimalCluster cfg t rands with
  | some cid =>
    (match mapGet t.clusters cid with
     | some c =>
       if c.peers.length < cfg.baseClusterSize then
         addPeerToCluster t peer cid
       else handleClusterFormation cfg t peer freshTag
     | none => handleClusterFormation cfg t peer freshTag)
  | none => handleClusterFormation cfg t peer freshTag

/-- `handlePeerConnect`: place the peer, then run the adaptation
tick. -/
def handlePeerConnect (cfg : TopoConfig) (t : Topology) (peer : String)
    (rands : List ℚ) (freshTag : String) : Topology :=
  (updateTopologyConnections cfg
    (integratePeer cfg t peer rands freshTag)).1

/-- `_calculateMergerScore`: load similarity plus a random component. -/
def calculateMergerScore (c1 c2 : Cluster) (rand : ℚ) : ℚ :=
  max 0 (50 - |c1.load - c2.load| * 10) + rand * 50

/-- `_findMergerTarget`: best-scoring other cluster whose merged size
stays within `baseClusterSize * 2`. -/
def findMergerTarget (cfg : TopoConfig) (t : Topology) (cid : String)
    (rands : List ℚ) : Option String :=
  match mapGet t.clusters cid with
  | none => none
  | some c =>
    (t.clusters.foldl (fun (acc : Option String × ℚ × List ℚ) pr =>
      if pr.1 == cid then acc
      else if c.peers.length + pr.2.peers.length >
          cfg.baseClusterSize * 2 then acc
      else
        let score := calculateMergerScore c pr.2 (acc.2.2.headD 0)
        if score > acc.2.1 then (some pr.1, score, acc.2.2.tail)
        else (acc.1, acc.2.1, acc.2.2.tail)) (none, -1, rands)).1

/-- `_handleClusterReorganization`: delete an empty cluster; otherwise
merge its peers and connections into the best merger target (updating
connection cluster references), then delete it. -/
def handleClusterReorganization (cfg : TopoConfig) (t : Topology)
    (cid : String) (rands : List ℚ) : Topology :=
  match mapGet t.clusters cid with
  | none => t
  | some c =>
    if c.peers.isEmpty then
      { t with clusters := mapDelete t.clusters cid }
    else
      match findMergerTarget cfg t cid rands with
      | some tid =>
        let t1 := updateCluster t tid (fun tc =>
          { tc with peers := c.peers.foldl setAdd tc.peers })
        let t2 := c.connections.foldl (fun acc connId =>
          match mapGet acc.connections connId with
          | some conn =>
            let acc1 := updateCluster acc tid (fun tc =>
              { tc with connections := setAdd tc.connections connId })
            let refs := conn.clusters.map
              (fun x => if x == cid then tid else x)
            let conn1 : Connection := { conn with clusters := refs }
            { acc1 with
              connections := mapSet acc1.connections connId conn1 }
          | none => acc) t1
        { t2 with clusters := mapDelete t2.clusters cid }
      | none => t

/-- `handlePeerDisconnect`: remove the peer from the first cluster
containing it (reorganizing clusters that fall below 2 members, local
cluster excepted), drop every connection touching the peer from the
connection map (cluster connection sets are NOT cleaned), then run the
adaptation tick. -/
def handlePeerDisconnect (cfg : TopoConfig) (t : Topology)
    (peer : String) (rands : List ℚ) : Topology :=
  let t1 := match t.clusters.find? (fun pr => pr.2.peers.contains peer)
    with
    | some pr =>
      let t' := updateCluster t pr.1 (fun c =>
        { c with peers := setDelete c.peers peer })
      if (setDelete pr.2.peers peer).length < 2 &&
          !(pr.1 == t.localClusterId) then
        handleClusterReorganization cfg t' pr.1 rands
      else t'
    | none => t
  let t2 := { t1 with connections :=
    t1.connections.filter (fun pr => !(pr.2.peers.contains peer)) }
  (updateTopologyConnections cfg t2).1

/-- `_reconnectIsolatedCluster`: connect an isolated cluster to the
first `min(redundancyFactor, others)` other clusters — with no
`maxConnections` check on either endpoint. -/
def reconnectIsolatedCluster (cfg : TopoConfig) (t : Topology)
    (cid : String) : Topology :=
  let others := (t.clusters.map (·.1)).filter (fun i => !(i == cid))
  (others.take (min cfg.redundancyFactor others.length)).foldl
    (fun acc oid => createClusterConnection acc cid oid) t

/-- The isolated-cluster part of `_checkTopologyHealth`: reconnect every
cluster with an empty connection set while other clusters exist. -/
def checkTopologyHealth (cfg : TopoConfig) (t : Topology) : Topology :=
  (t.clusters.map (·.1)).foldl (fun acc cid =>
    match mapGet acc.clusters cid with
    | some c =>
      if c.connections.isEmpty && acc.clusters.length > 1 then
        reconnectIsolatedCluster cfg acc cid
      else acc
    | none => acc) t

/-- `initialize`: the local singleton cluster `cluster_<nodeId>`. -/
def initTopology (cfg : TopoConfig) : Topology :=
  let localId := "cluster_" ++ cfg.nodeId
  { currentState := .contracted, targetState := .contracted,
    clusters := [(localId,
      { id := localId, peers := [cfg.nodeId], center := cfg.nodeId,
        load := 0, connections := [] })],
    connections := [], localClusterId := localId }

/-- A configuration with a tight per-cluster ceiling: singleton base
clusters, `maxConnections = 1`, `redundancyFactor = 1` (thresholds at
their defaults). -/
def cfgTight : TopoConfig :=
  { nodeId := "n0", baseClusterSize := 1, expansionThreshold := 4 / 5,
    contractionThreshold := 3 / 10, maxConnections := 1,
    redundancyFactor := 1 }

/-- A one-cluster topology under full load while contracted. -/
def topoHigh : Topology :=
  { currentState := .contracted, targetState := .contracted,
    clusters := [("cluster_n0",
      { id := "cluster_n0", peers := ["n0"], center := "n0", load := 1,
        connections := [] })],
    connections := [], localClusterId := "cluster_n0" }

/-- `topoHigh` already expanded (load still high). -/
def topoHighExpanded : Topology :=
  { topoHigh with currentState := .expanded, targetState := .expanded }

/-- A one-cluster topology under zero load while expanded. -/
def topoLowExpanded : Topology :=
  { currentState := .expanded, targetState := .expanded,
    clusters := [("cluster_n0",
      { id := "cluster_n0", peers := ["n0"], center := "n0", load := 0,
        connections := [] })],
    connections := [], localClusterId := "cluster_n0" }

/-- A default-like configuration for the adaptation witnesses. -/
def cfgDefault : TopoConfig :=
  { nodeId := "n0", baseClusterSize := 6, expansionThreshold := 4 / 5,
    contractionThreshold := 3 / 10, maxConnections := 20,
    redundancyFactor := 3 }

/-- A two-cluster topology (no connections yet) used as the expansion
witness. -/
def topoTwoClusters : Topology :=
  { currentState := .contracted, targetState := .contracted,
    clusters := [("cluster_a",
      { id := "cluster_a", peers := ["a"], center := "a", load := 0,
        connections := [] }),
      ("cluster_b",
      { id := "cluster_b", peers := ["b"], center := "b", load := 0,
        connections := [] })],
    connections := [], localClusterId := "cluster_a" }

/-- The topology after peer `p1` joins `initTopology cfgTight`: with
`baseClusterSize = 1` every cluster is full, so `p1` forms a new
cluster, attached to the local cluster. -/
def topoT1 : Topology :=
  { currentState := .contracted, targetState := .contracted,
    clusters := [("cluster_n0",
      { id := "cluster_n0", peers := ["n0"], center := "n0", load := 0,
        connections := ["conn_cluster_p1_t1_cluster_n0"] }),
      ("cluster_p1_t1",
      { id := "cluster_p1_t1", peers := ["p1"], center := "p1",
        load := 0,
        connections := ["conn_cluster_p1_t1_cluster_n0"] })],
    connections := [("conn_cluster_p1_t1_cluster_n0",
      { id := "conn_cluster_p1_t1_cluster_n0", ctype := "inter-cluster",
        clusters := ["cluster_p1_t1", "cluster_n0"],
        peers := ["p1", "n0"] })],
    localClusterId := "cluster_n0" }

/-- The topology after peer `p2` also joins: its new cluster attaches to
the FIRST other cluster in map order — the local cluster again, whose
connection set now has 2 elements although `maxConnections = 1`. -/
def topoT2 : Topology :=
  { currentState := .contracted, targetState := .contracted,
    clusters := [("cluster_n0",
      { id := "cluster_n0", peers := ["n0"], center := "n0", load := 0,
        connections := ["conn_cluster_p1_t1_cluster_n0",
                        "conn_cluster_p2_t2_cluster_n0"] }),
      ("cluster_p1_t1",
      { id := "cluster_p1_t1", peers := ["p1"], center := "p1",
        load := 0,
        connections := ["conn_cluster_p1_t1_cluster_n0"] }),
      ("cluster_p2_t2",
      { id := "cluster_p2_t2", peers := ["p2"], center := "p2",
        load := 0,
        connections := ["conn_cluster_p2_t2_cluster_n0"] })],
    connections := [("conn_cluster_p1_t1_cluster_n0",
      { id := "conn_cluster_p1_t1_cluster_n0", ctype := "inter-cluster",
        clusters := ["cluster_p1_t1", "cluster_n0"],
        peers := ["p1", "n0"] }),
      ("conn_cluster_p2_t2_cluster_n0",
      { id := "conn_cluster_p2_t2_cluster_n0", ctype := "inter-cluster",
        clusters := ["cluster_p2_t2", "cluster_n0"],
        peers := ["p2", "n0"] })],
    localClusterId := "cluster_n0" }

end Topo

/-! ## Mesh Network dispatch and Mesh Router
Embeds the topic switch of `MeshNetwork._handleMessage`
(src/protocol/src/network/index.js) and
`MeshRouter.handleForwardedMessage` (src/src/network/routing/index.js). -/

namespace Network

/-- The component handler an inbound message can be dispatched to (the
claim's six protocol topics), plus the default branch. -/
inductive Dispatch where
  | peerTriplet
  | peerNeed
  | peerHas
  | peerOverlay
  | topologyUpdate
  | routeForward
  | unknownTopic
deriving DecidableEq, Repr

/-- `MeshNetwork._handleMessage`: the topic switch.  Five topics are
dispatched (`protocol:triplet`, `protocol:need`, `protocol:has` and
`overlay:sync` emit the component event; `topology:update` calls the
topology); every other topic — `route:forward` included — falls to the
default branch, which only logs "Unknown message topic". -/
def handleMessage (topic : String) : Dispatch :=
  if topic == "protocol:triplet" then .peerTriplet
  else if topic == "protocol:need" then .peerNeed
  else if topic == "protocol:has" then .peerHas
  else if topic == "overlay:sync" then .peerOverlay
  else if topic == "topology:update" then .topologyUpdate
  else .unknownTopic

/-- The `_route` metadata `_executeRoute` attaches to a forwarded
message. -/
structure RouteMeta where
  destination : String
  path : List String
  currentHop : ℕ
  totalHops : ℕ
deriving DecidableEq, Repr

/-- A message as seen by `handleForwardedMessage`: its routing metadata
(if any); the payload is irrelevant to routing. -/
structure FwdMessage where
  id : String
  topic : String
  route : Option RouteMeta
deriving DecidableEq, Repr

/-- The observable outcome of `MeshRouter.handleForwardedMessage`. -/
inductive FwdResult where
  | noRouteInfo
  | delivered (m : FwdMessage)
  | hopLimitExceeded
  | pathExhausted
  | forwardedTo (nextHop : String) (m : FwdMessage)
deriving DecidableEq, Repr

/-- `MeshRouter.handleForwardedMessage`: increment `currentHop`;
deliver and strip `_route` when this node is the destination; drop on
hop-limit or path exhaustion; otherwise forward the message (carrying
the incremented counter) to `path[currentHop]`. -/
def handleForwardedMessage (selfId : String) (m : FwdMessage) :
    FwdResult :=
  match m.route with
  | none => .noRouteInfo
  | some r =>
    let r1 := { r with currentHop := r.currentHop + 1 }
    if r1.destination == selfId then .delivered { m with route := none }
    else if r1.currentHop ≥ r1.totalHops then .hopLimitExceeded
    else if r1.currentHop ≥ r1.path.length then .pathExhausted
    else .forwardedTo (r1.path.getD r1.currentHop "")
      { m with route := some r1 }

/-- A forwarded message addressed to this node. -/
def msgToSelf : FwdMessage :=
  { id := "m1", topic := "protocol:triplet",
    route := some { destination := "node-self", path := ["a", "node-self"],
                    currentHop := 0, totalHops := 2 } }

/-- A forwarded message for a farther destination passing through this
node. -/
def msgThrough : FwdMessage :=
  { id := "m2", topic := "protocol:triplet",
    route := some { destination := "node-far",
                    path := ["a", "b", "node-far"], currentHop := 0,
                    totalHops := 3 } }

/-- `msgThrough`'s routing metadata after one hop increment. -/
def routeThroughNext : RouteMeta :=
  { destination := "node-far", path := ["a", "b", "node-far"],
    currentHop := 1, totalHops := 3 }

end Network

/-! ## Jitterbug port-expansion rule (per message)
Modelled from the spec: the repository ships only design pseudocode for
the per-message port-expansion rule (src/jitterbug_network_protocol.md
`on_receive` / `handle_busy_with_open` / `handle_not_busy_with_open` /
`handle_normal`); no executable implementation exists under src/.  The
definitions below follow that pseudocode and the spec's §4.4 wording. -/

namespace PortExpansion

/-- Modelled from the spec: the node-local state of the pseudocode
(`ports_total`, `ports_used`, `expanded_ports`, `expanded_budget`). -/
structure PortNode where
  portsTotal : ℕ
  portsUsed : ℕ
  expandedPorts : ℕ
  expandedBudget : ℕ
deriving DecidableEq, Repr

/-- Modelled from the spec: a node is busy when
`ports_used == ports_total`. -/
def isBusy (n : PortNode) : Bool :=
  n.portsUsed == n.portsTotal

/-- Modelled from the spec: `can_expand_ports()` enforces the hard
ceiling `ports_total + expanded_ports <= HARD_LIMIT` for the `k` ports
about to be opened. -/
def canExpandPorts (hardLimit k : ℕ) (n : PortNode) : Bool :=
  n.portsTotal + n.expandedPorts + k ≤ hardLimit

/-- Modelled from the spec: `on_receive(m, open_n)`.  A busy node with
positive budget opens `k` temporary ports granting a usage budget of
`B` further messages and forwards the budget UNCHANGED, or queues/drops
when it cannot expand; a non-busy node with positive budget decrements
and forwards; `open_0` is normal 1:1 traffic, forwarded when capacity
allows and never expanding.  Returns the updated node and `some`
forwarded budget (`none` when queued/dropped). -/
def onReceive (hardLimit k B : ℕ) (n : PortNode) (openN : ℕ) :
    PortNode × Option ℕ :=
  if 0 < openN then
    if isBusy n then
      if canExpandPorts hardLimit k n then
        ({ n with expandedPorts := n.expandedPorts + k,
                  expandedBudget := n.expandedBudget + B }, some openN)
      else (n, none)
    else (n, some (openN - 1))
  else
    if isBusy n then (n, none) else (n, some openN)

/-- Modelled from the spec: propagate a message along a chain of
forwarding nodes; returns the budgets carried into each hop (ending
with the final forwarded budget) and the updated nodes (the untouched
tail included when the message is queued/dropped mid-path). -/
def propagate (hardLimit k B : ℕ) :
    List PortNode → ℕ → List ℕ × List PortNode
  | [], b => ([b], [])
  | n :: ns, b =>
    match onReceive hardLimit k B n b with
    | (n', none) => ([b], n' :: ns)
    | (n', some b') =>
      let res := propagate hardLimit k B ns b'
      (b :: res.1, n' :: res.2)

/-- Two non-busy nodes followed by a busy, expandable node. -/
def chainMixed : List PortNode :=
  [{ portsTotal := 4, portsUsed := 2, expandedPorts := 0,
     expandedBudget := 0 },
   { portsTotal := 4, portsUsed := 3, expandedPorts := 0,
     expandedBudget := 0 },
   { portsTotal := 4, portsUsed := 4, expandedPorts := 0,
     expandedBudget := 0 }]

end PortExpansion

/-! ## Theorems -/

/-- C2: the claim says `verifyHash()` is false after any mutation of a
field covered by the digest, including nested values inside `object` and
`context`.  The code violates this: `_calculateHash` passes the sorted
top-level key list to `JSON.stringify` as its replacer argument, which
acts as a property whitelist at every nesting depth, so nested context
keys such as `urgency` and `expires` are dropped from the digest.
Evaluating the code at the failing input: after mutating those nested
values without recomputation, `verifyHash()` still returns true. -/
theorem verifyHash_true_after_nested_context_mutation :
    Triplet.verifyHash tripletNested = true ∧
    Triplet.verifyHash tripletNestedMut = true := by
  decide

namespace Consensus

/-- C1 (amended): for a pending round, no decision is made with fewer
than `minValidators` votes; with at least `minValidators` votes the
round is accepted exactly when agreement ≥ threshold, rejected exactly
when agreement < 1 − threshold (STRICT, not ≤ as claimed), and left
pending otherwise.  `1/2 ≤ threshold` reflects any sensible
configuration (default 0.67). -/
theorem consensus_decision_boundaries (th : ℚ) (mv : ℕ)
    (cs : ConsensusState) (hpend : cs.status = .pending)
    (hth : 1 / 2 ≤ th) (_hpos : 0 < cs.votes.length) :
    (cs.votes.length < mv → checkConsensusReached th mv cs = cs) ∧
    (mv ≤ cs.votes.length →
      (((checkConsensusReached th mv cs).status = .accepted) ↔
        th ≤ agreementOf cs) ∧
      (((checkConsensusReached th mv cs).status = .rejected) ↔
        agreementOf cs < 1 - th) ∧
      (((checkConsensusReached th mv cs).status = .pending) ↔
        (agreementOf cs < th ∧ 1 - th ≤ agreementOf cs))) := by
  refine ⟨fun hlt => by simp [checkConsensusReached, hpend, hlt],
    fun hge => ?_⟩
  have hnlt : ¬ cs.votes.length < mv := Nat.not_lt.mpr hge
  have hred : checkConsensusReached th mv cs =
      if th ≤ agreementOf cs then { cs with status := CStatus.accepted }
      else if agreementOf cs < 1 - th then
        { cs with status := CStatus.rejected }
      else cs := by
    simp [checkConsensusReached, hpend, hnlt, agreementOf]
  rw [hred]
  by_cases hacc : th ≤ agreementOf cs
  · rw [if_pos hacc]
    refine ⟨⟨fun _ => hacc, fun _ => rfl⟩, ⟨fun h => ?_, fun h => ?_⟩,
      ⟨fun h => ?_, fun h => ?_⟩⟩
    · simp at h
    · exact absurd h (not_lt.mpr (by linarith))
    · simp at h
    · exact absurd hacc (not_le.mpr h.1)
  · rw [if_neg hacc]
    push_neg at hacc
    by_cases hrej : agreementOf cs < 1 - th
    · rw [if_pos hrej]
      refine ⟨⟨fun h => ?_, fun h => ?_⟩, ⟨fun _ => hrej, fun _ => rfl⟩,
        ⟨fun h => ?_, fun h => ?_⟩⟩
      · simp at h
      · exact absurd h (not_le.mpr hacc)
      · simp at h
      · exact absurd hrej (not_lt.mpr h.2)
    · rw [if_neg hrej]
      push_neg at hrej
      refine ⟨⟨fun h => ?_, fun h => ?_⟩, ⟨fun h => ?_, fun h => ?_⟩,
        ⟨fun _ => ⟨hacc, hrej⟩, fun _ => hpend⟩⟩
      · rw [hpend] at h; simp at h
      · exact absurd h (not_le.mpr hacc)
      · rw [hpend] at h; simp at h
      · exact absurd h (not_lt.mpr hrej)

/-- Witness for C1 at the spec's own examples, with `minValidators = 3`
and threshold 0.67: 2-of-3 positive stays pending, 3-of-3 positive is
accepted, 0-of-3 positive is rejected. -/
theorem consensus_decision_boundaries_witness :
    (checkConsensusReached (67 / 100) 3 votes21).status = .pending ∧
    (checkConsensusReached (67 / 100) 3 votes30).status = .accepted ∧
    (checkConsensusReached (67 / 100) 3 votes03).status = .rejected := by
  have h21 : agreementOf votes21 = 2 / 3 := by
    have h1 : positiveVotes votes21.votes = 2 := rfl
    have h2 : votes21.votes.length = 3 := rfl
    simp only [agreementOf, h1, h2]; norm_num
  have h30 : agreementOf votes30 = 1 := by
    have h1 : positiveVotes votes30.votes = 3 := rfl
    have h2 : votes30.votes.length = 3 := rfl
    simp only [agreementOf, h1, h2]; norm_num
  have h03 : agreementOf votes03 = 0 := by
    have h1 : positiveVotes votes03.votes = 0 := rfl
    have h2 : votes03.votes.length = 3 := rfl
    simp only [agreementOf, h1, h2]; norm_num
  refine ⟨?_, ?_, ?_⟩
  · exact (((consensus_decision_boundaries (67 / 100) 3 votes21 rfl
      (by norm_num) (by decide)).2 (by decide)).2.2).mpr
      (by rw [h21]; constructor <;> norm_num)
  · exact (((consensus_decision_boundaries (67 / 100) 3 votes30 rfl
      (by norm_num) (by decide)).2 (by decide)).1).mpr
      (by rw [h30]; norm_num)
  · exact (((consensus_decision_boundaries (67 / 100) 3 votes03 rfl
      (by norm_num) (by decide)).2 (by decide)).2.1).mpr
      (by rw [h03]; norm_num)

/-- C1 counterexample to the claim as stated: at agreement exactly equal
to 1 − threshold (33 positive of 100 votes, threshold 0.67) the claim
demands `rejected`, but `_checkConsensusReached` uses a strict `<` and
leaves the round pending. -/
theorem consensus_boundary_pending_not_rejected :
    agreementOf votesBoundary ≤ 1 - (67 : ℚ) / 100 ∧
    3 ≤ votesBoundary.votes.length ∧
    (checkConsensusReached ((67 : ℚ) / 100) 3 votesBoundary).status =
      .pending ∧
    (checkConsensusReached ((67 : ℚ) / 100) 3 votesBoundary).status ≠
      .rejected := by
  have hpv : positiveVotes votesBoundary.votes = 33 := rfl
  have hlen : votesBoundary.votes.length = 100 := rfl
  have hst : votesBoundary.status = .pending := rfl
  have hagr : agreementOf votesBoundary = 33 / 100 := by
    simp only [agreementOf, hpv, hlen]; norm_num
  have hred : checkConsensusReached ((67 : ℚ) / 100) 3 votesBoundary =
      votesBoundary := by
    simp only [checkConsensusReached, hst, hpv, hlen]
    norm_num
  refine ⟨by rw [hagr]; norm_num, by rw [hlen]; norm_num, by rw [hred, hst],
    by rw [hred, hst]; simp⟩

end Consensus

namespace Validation

/-- C3 counterexample: a `committed` fact whose entity is a single
identifier PASSES the semantic stage (`_validateSemantics` only forbids
entity arrays for non-committed relations and empty values), and the
whole `validateTriplet` pipeline returns true for it; the claim says
the semantic stage always fails and `validateTriplet` returns false. -/
theorem committed_single_entity_passes_semantics :
    validateSemantics committedSingle = true ∧
    committedSingle.relation = "committed" ∧
    entityCount committedSingle = 1 ∧
    (validateTriplet envLocal committedSingle).1 = true := by
  decide

/-- C3 (amended): a `committed` fact with fewer than two entities is
rejected, but by the multi-party agreement check inside
`validateCommittedTriplet` (which runs after standard validation), not
by the semantic stage: `validateCommittedTriplet` returns false for
every environment and reference list. -/
theorem committed_few_entities_fails_committed_validation (env : VEnv)
    (t : Triplet) (refs : List Triplet)
    (_hrel : t.relation = "committed") (hcount : entityCount t < 2) :
    validateCommittedTriplet env t refs = false := by
  have hm : validateMultiPartyAgreement t = false := by
    simp only [validateMultiPartyAgreement, ge_iff_le,
      decide_eq_false_iff_not, not_le]
    omega
  simp [validateCommittedTriplet, hm]

/-- Witness for C3 (amended) at the single-entity committed fact. -/
theorem committed_few_entities_fails_committed_validation_witness :
    committedSingle.relation = "committed" ∧
    entityCount committedSingle < 2 ∧
    validateCommittedTriplet envLocal committedSingle [] = false :=
  ⟨rfl, by decide,
    committed_few_entities_fails_committed_validation envLocal
      committedSingle [] rfl (by decide)⟩

/-- C4 counterexample: the locally created fact validates (true, and is
marked `validated`); re-validating the very same returned fact against
the index that now contains its id returns false — the uniqueness
business rule fails once the fact is stored, so re-validation does not
yield the same result. -/
theorem revalidation_of_stored_fact_returns_false :
    (validateTriplet envLocal needLocal).1 = true ∧
    (validateTriplet envLocal needLocal).2.validated = true ∧
    (validateTriplet envIndexed
      (validateTriplet envLocal needLocal).2).1 = false := by
  decide

/-- C4 (amended): re-validating a fact whose id is already stored in the
protocol's fact index returns false (the `uniqueness` rule fails);
validation is idempotent only for facts not stored in the index: when
`validateTriplet` returns true, re-validating the triplet it returns
(signed and flagged `validated`) against the same state returns true
again. -/
theorem validateTriplet_idempotent_only_off_index (env : VEnv)
    (t : Triplet) :
    (t.id ∈ env.tripletIds → (validateTriplet env t).1 = false) ∧
    ((validateTriplet env t).1 = true →
      (validateTriplet env (validateTriplet env t).2).1 = true) := by
  constructor
  · intro hmem
    have hu : ruleUniqueness env t = false := by
      simp [ruleUniqueness, hmem]
    have hb : validateBusinessRules env t = false := by
      simp [validateBusinessRules, hu]
    simp [validateTriplet, hb]
  · intro hok
    cases hB : (validateStructure t && validateSemantics t &&
        validateCryptography env t && validateContext env t &&
        validateBusinessRules env t) with
    | false =>
      rw [validateTriplet, hB] at hok
      simp at hok
    | true =>
      have hparts := hB
      simp only [Bool.and_eq_true] at hparts
      obtain ⟨⟨⟨⟨h1, h2⟩, h3⟩, h4⟩, h5⟩ := hparts
      have hvh : Triplet.verifyHash t = true := by
        have h3' := h3
        simp only [validateCryptography, Bool.and_eq_true] at h3'
        exact h3'.1
      cases hG : (t.creator == env.nodeId && t.signature.isNone) with
      | false =>
        have ht2 : (validateTriplet env t).2 = { t with validated := true } := by
          simp [validateTriplet, hB, hG]
        rw [ht2]
        have hcond2 : (validateStructure { t with validated := true } &&
            validateSemantics { t with validated := true } &&
            validateCryptography env { t with validated := true } &&
            validateContext env { t with validated := true } &&
            validateBusinessRules env { t with validated := true }) =
            true := hB
        simp [validateTriplet, hcond2]
      | true =>
        have hGc := hG
        simp only [Bool.and_eq_true] at hGc
        obtain ⟨hG1, _hG2⟩ := hGc
        have ht2 : (validateTriplet env t).2 =
            { t with signature := some ⟨env.publicKey, t.hash⟩,
                     validated := true } := by
          simp [validateTriplet, hB, hG, signTriplet]
        rw [ht2]
        have hc2 : validateCryptography env
            { t with signature := some ⟨env.publicKey, t.hash⟩,
                     validated := true } = true := by
          have hvh2 : Triplet.verifyHash
              { t with signature := some ⟨env.publicKey, t.hash⟩,
                       validated := true } = true := hvh
          simp [validateCryptography, hvh2, verifySignatureB, getPublicKey,
            hG1]
        have hcond2 : (validateStructure
            { t with signature := some ⟨env.publicKey, t.hash⟩,
                     validated := true } &&
            validateSemantics
            { t with signature := some ⟨env.publicKey, t.hash⟩,
                     validated := true } &&
            validateCryptography env
            { t with signature := some ⟨env.publicKey, t.hash⟩,
                     validated := true } &&
            validateContext env
            { t with signature := some ⟨env.publicKey, t.hash⟩,
                     validated := true } &&
            validateBusinessRules env
            { t with signature := some ⟨env.publicKey, t.hash⟩,
                     validated := true }) = true := by
          have e1 : validateStructure
              { t with signature := some ⟨env.publicKey, t.hash⟩,
                       validated := true } = validateStructure t := rfl
          have e2 : validateSemantics
              { t with signature := some ⟨env.publicKey, t.hash⟩,
                       validated := true } = validateSemantics t := rfl
          have e4 : validateContext env
              { t with signature := some ⟨env.publicKey, t.hash⟩,
                       validated := true } = validateContext env t := rfl
          have e5 : validateBusinessRules env
              { t with signature := some ⟨env.publicKey, t.hash⟩,
                       validated := true } = validateBusinessRules env t :=
            rfl
          rw [e1, e2, e4, e5, hc2, h1, h2, h4, h5]
          simp
        simp [validateTriplet, hcond2]

/-- Witness for C4 (amended): the stored fact fails re-validation; the
unstored fact validates and re-validates to true. -/
theorem validateTriplet_idempotent_only_off_index_witness :
    needLocal.id ∈ envIndexed.tripletIds ∧
    (validateTriplet envIndexed needLocal).1 = false ∧
    (validateTriplet envLocal needLocal).1 = true ∧
    (validateTriplet envLocal (validateTriplet envLocal needLocal).2).1 =
      true := by
  have hmem : needLocal.id ∈ envIndexed.tripletIds := by decide
  have hok : (validateTriplet envLocal needLocal).1 = true := by decide
  exact ⟨hmem,
    (validateTriplet_idempotent_only_off_index envIndexed needLocal).1 hmem,
    hok,
    (validateTriplet_idempotent_only_off_index envLocal needLocal).2 hok⟩

/-- C10: a triplet carrying a non-null signature whose creator is not
the local node is rejected by `validatePeerTriplet` for every sending
peer: `_getPublicKey` returns null for every non-local creator, so
signature verification fails in the cryptographic stage and standard
validation already returns false. -/
theorem signed_remote_triplet_never_validates (env : VEnv) (t : Triplet)
    (peerId : String) (hsig : t.signature.isSome = true)
    (hremote : t.creator ≠ env.nodeId) :
    validatePeerTriplet env t peerId = false := by
  obtain ⟨s, hs⟩ := Option.isSome_iff_exists.mp hsig
  have hpk : getPublicKey env t.creator = none := by
    simp [getPublicKey, hremote]
  have hvs : verifySignatureB env t = false := by
    simp [verifySignatureB, hs, hpk]
  have hcrypt : validateCryptography env t = false := by
    simp [validateCryptography, hs, hvs]
  have hvt : (validateTriplet env t).1 = false := by
    simp [validateTriplet, hcrypt]
  simp [validatePeerTriplet, hvt]

/-- Witness for C10 at a concrete signed remote fact. -/
theorem signed_remote_triplet_never_validates_witness :
    signedRemote.signature.isSome = true ∧
    signedRemote.creator ≠ envLocal.nodeId ∧
    validatePeerTriplet envLocal signedRemote "peer-remote" = false :=
  ⟨rfl, by decide,
    signed_remote_triplet_never_validates envLocal signedRemote
      "peer-remote" rfl (by decide)⟩

end Validation

namespace Protocol

/-- C7 counterexample: a `has` fact whose `context.expires` has elapsed
(it is expired by the fact model's own `isExpired`) survives the expiry
sweep in both the `has` partition and the id-keyed map: the sweep only
visits the needs and committed partitions. -/
theorem expired_has_survives_sweep :
    Triplet.isExpired 1000 expiredHas = true ∧
    needExpired 1000 expiredHas = true ∧
    ((cleanupExpiredTriplets 1000 stateWithExpired).has.map (·.1)) =
      ["has-expired-001"] ∧
    ((cleanupExpiredTriplets 1000 stateWithExpired).triplets.map (·.1)) =
      ["has-expired-001"] := by
  decide

/-- C7 (amended): after the sweep no expired need remains in the needs
partition and no expired committed fact remains in the committed
partition; every expired need or committed fact is also removed from
the id-keyed map; the `has` partition is returned untouched, so expired
`has` facts are NOT removed. -/
theorem cleanup_sweeps_needs_and_committed_only (now : Int)
    (p : ProtocolState) :
    (∀ pr ∈ (cleanupExpiredTriplets now p).needs,
      needExpired now pr.2 = false) ∧
    (∀ pr ∈ (cleanupExpiredTriplets now p).committed,
      committedExpired now pr.2 = false) ∧
    (cleanupExpiredTriplets now p).has = p.has ∧
    (∀ pr ∈ p.needs, needExpired now pr.2 = true →
      ∀ q ∈ (cleanupExpiredTriplets now p).triplets, q.1 ≠ pr.1) ∧
    (∀ pr ∈ p.committed, committedExpired now pr.2 = true →
      ∀ q ∈ (cleanupExpiredTriplets now p).triplets, q.1 ≠ pr.1) := by
  refine ⟨?_, ?_, rfl, ?_, ?_⟩
  · intro pr hpr
    simp only [cleanupExpiredTriplets, List.mem_filter,
      Bool.not_eq_true'] at hpr
    exact hpr.2
  · intro pr hpr
    simp only [cleanupExpiredTriplets, List.mem_filter,
      Bool.not_eq_true'] at hpr
    exact hpr.2
  · intro pr hpr hexp q hq hEq
    have hid : pr.1 ∈
        ((p.needs.filter (fun pr3 => needExpired now pr3.2)).map
          (fun x => x.1)) :=
      List.mem_map.mpr ⟨pr, List.mem_filter.mpr ⟨hpr, hexp⟩, rfl⟩
    simp only [cleanupExpiredTriplets, List.mem_filter,
      Bool.not_eq_true'] at hq
    have hq2 := hq.1.2
    exact absurd (hEq ▸ hid) (by simpa using hq2)
  · intro pr hpr hexp q hq hEq
    have hid : pr.1 ∈
        ((p.committed.filter (fun pr3 => committedExpired now pr3.2)).map
          (fun x => x.1)) :=
      List.mem_map.mpr ⟨pr, List.mem_filter.mpr ⟨hpr, hexp⟩, rfl⟩
    simp only [cleanupExpiredTriplets, List.mem_filter,
      Bool.not_eq_true'] at hq
    have hq2 := hq.2
    exact absurd (hEq ▸ hid) (by simpa using hq2)

/-- Witness for C7 (amended) at the concrete index: the expired need is
gone from the id map, and the `has` partition is untouched. -/
theorem cleanup_sweeps_needs_and_committed_only_witness :
    needExpired 1000 expiredNeed = true ∧
    ((cleanupExpiredTriplets 1000 stateWithExpired).triplets.all
      (fun q => q.1 != "need-expired-01")) = true ∧
    (cleanupExpiredTriplets 1000 stateWithExpired).has =
      stateWithExpired.has := by
  have h := cleanup_sweeps_needs_and_committed_only 1000 stateWithExpired
  have h4 := h.2.2.2.1 ("need-expired-01", expiredNeed)
    (List.mem_cons_self _ _) (by decide)
  refine ⟨by decide, ?_, h.2.2.1⟩
  exact List.all_eq_true.mpr (fun q hq => by simpa using h4 q hq)

end Protocol

namespace Topo

/-- The adaptation tick leaves the topology untouched when neither
threshold condition fires. -/
theorem updateTopologyConnections_noop (cfg : TopoConfig) (t : Topology)
    (h1 : ¬ (calculateNetworkLoad t > cfg.expansionThreshold ∧
      t.currentState = TState.contracted))
    (h2 : ¬ (calculateNetworkLoad t < cfg.contractionThreshold ∧
      t.currentState = TState.expanded)) :
    updateTopologyConnections cfg t = (t, []) := by
  rw [updateTopologyConnections]
  rw [if_neg h1, if_neg h2]

/-- C5: between adaptation ticks the state is never `transitioning`;
a tick that sees load above the expansion threshold while `contracted`
passes through `transitioning` and ends `expanded` within that tick,
and dually for contraction; a tick whose threshold condition does not
fire performs no transition at all (so each threshold crossing causes
exactly one transition). -/
theorem adaptation_state_machine (cfg : TopoConfig) (t : Topology) :
    (t.currentState ≠ .transitioning →
      (updateTopologyConnections cfg t).1.currentState ≠
        .transitioning) ∧
    (t.currentState = .contracted →
      calculateNetworkLoad t > cfg.expansionThreshold →
      adaptationTrace cfg t = [.contracted, .transitioning, .expanded] ∧
      (updateTopologyConnections cfg t).1.currentState = .expanded) ∧
    (t.currentState = .expanded →
      calculateNetworkLoad t < cfg.contractionThreshold →
      adaptationTrace cfg t = [.expanded, .transitioning, .contracted] ∧
      (updateTopologyConnections cfg t).1.currentState = .contracted) ∧
    (t.currentState = .contracted →
      ¬ calculateNetworkLoad t > cfg.expansionThreshold →
      adaptationTrace cfg t = [.contracted]) ∧
    (t.currentState = .expanded →
      ¬ calculateNetworkLoad t < cfg.contractionThreshold →
      adaptationTrace cfg t = [.expanded]) := by
  refine ⟨?_, ?_, ?_, ?_, ?_⟩
  · intro hnt
    by_cases h1 : calculateNetworkLoad t > cfg.expansionThreshold ∧
        t.currentState = TState.contracted
    · simp [updateTopologyConnections, h1, initiateExpansion, h1.2]
    · by_cases h2 : calculateNetworkLoad t < cfg.contractionThreshold ∧
          t.currentState = TState.expanded
      · simp [updateTopologyConnections, h1, h2, initiateContraction,
          h2.2]
      · rw [updateTopologyConnections_noop cfg t h1 h2]
        exact hnt
  · intro hc hl
    constructor
    · simp [adaptationTrace, updateTopologyConnections, hc, hl,
        initiateExpansion]
    · simp [updateTopologyConnections, hc, hl, initiateExpansion]
  · intro hc hl
    constructor
    · simp [adaptationTrace, updateTopologyConnections, hc, hl,
        initiateContraction]
    · simp [updateTopologyConnections, hc, hl, initiateContraction]
  · intro hc hl
    have h2 : ¬ (calculateNetworkLoad t < cfg.contractionThreshold ∧
        t.currentState = TState.expanded) := by
      rintro ⟨-, h⟩
      rw [hc] at h
      exact absurd h (by simp)
    rw [adaptationTrace,
      updateTopologyConnections_noop cfg t (fun h => hl h.1) h2, hc]
  · intro hc hl
    have h1 : ¬ (calculateNetworkLoad t > cfg.expansionThreshold ∧
        t.currentState = TState.contracted) := by
      rintro ⟨-, h⟩
      rw [hc] at h
      exact absurd h (by simp)
    rw [adaptationTrace,
      updateTopologyConnections_noop cfg t h1 (fun h => hl h.1), hc]

/-- Witness for C5: a contracted one-cluster topology at full load
expands through `transitioning` within one tick; expanded at the same
load, the next tick performs no transition; expanded at zero load, the
tick contracts through `transitioning`. -/
theorem adaptation_state_machine_witness :
    adaptationTrace cfgDefault topoHigh =
      [.contracted, .transitioning, .expanded] ∧
    adaptationTrace cfgDefault topoHighExpanded = [.expanded] ∧
    adaptationTrace cfgDefault topoLowExpanded =
      [.expanded, .transitioning, .contracted] := by
  have hH : calculateNetworkLoad topoHigh = 1 := by
    norm_num [calculateNetworkLoad, topoHigh]
  have hHE : calculateNetworkLoad topoHighExpanded = 1 := by
    norm_num [calculateNetworkLoad, topoHighExpanded, topoHigh]
  have hL : calculateNetworkLoad topoLowExpanded = 0 := by
    norm_num [calculateNetworkLoad, topoLowExpanded]
  refine ⟨((adaptation_state_machine cfgDefault topoHigh).2.1 rfl
      ?_).1,
    (adaptation_state_machine cfgDefault topoHighExpanded).2.2.2.2 rfl
      ?_,
    ((adaptation_state_machine cfgDefault topoLowExpanded).2.2.1 rfl
      ?_).1⟩
  · rw [hH]; norm_num [cfgDefault]
  · rw [hHE]; norm_num [cfgDefault]
  · rw [hL]; norm_num [cfgDefault]

/-- C6 counterexample: from the initial topology under the
configuration `baseClusterSize = 1`, `maxConnections = 1`,
`redundancyFactor = 1`, two peer-connect operations drive the local
cluster's connection set to 2 elements — above the claimed hard ceiling
`maxConnections = 1` — because `_connectClusterToTopology` attaches each
new cluster to the first other cluster with no capacity check. -/
theorem cluster_exceeds_connection_ceiling :
    clusterConnCount
      (handlePeerConnect cfgTight
        (handlePeerConnect cfgTight (initTopology cfgTight) "p1" [] "t1")
        "p2" [] "t2") "cluster_n0" = 2 ∧
    cfgTight.maxConnections = 1 := by
  have hi1 : integratePeer cfgTight (initTopology cfgTight) "p1" []
      "t1" = topoT1 := rfl
  have hl1 : calculateNetworkLoad topoT1 = 0 := by
    norm_num [calculateNetworkLoad, topoT1]
  have ht1 : handlePeerConnect cfgTight (initTopology cfgTight) "p1" []
      "t1" = topoT1 := by
    rw [handlePeerConnect, hi1, updateTopologyConnections_noop]
    · rintro ⟨h, -⟩
      rw [hl1] at h
      norm_num [cfgTight] at h
    · rintro ⟨-, h⟩
      exact absurd h (by simp [topoT1])
  have hi2 : integratePeer cfgTight topoT1 "p2" [] "t2" = topoT2 := rfl
  have hl2 : calculateNetworkLoad topoT2 = 0 := by
    norm_num [calculateNetworkLoad, topoT2]
  have ht2 : handlePeerConnect cfgTight topoT1 "p2" [] "t2" =
      topoT2 := by
    rw [handlePeerConnect, hi2, updateTopologyConnections_noop]
    · rintro ⟨h, -⟩
      rw [hl2] at h
      norm_num [cfgTight] at h
    · rintro ⟨-, h⟩
      exact absurd h (by simp [topoT2])
  rw [ht1, ht2]
  exact ⟨by decide, rfl⟩

/-- `mapGet` after a key-preserving in-place update. -/
theorem mapGet_map_update {α : Type} (m : List (String × α))
    (k : String) (f : α → α) (k' : String) :
    mapGet (m.map (fun p => if p.1 == k then (p.1, f p.2) else p)) k' =
      if k' == k then (mapGet m k).map f else mapGet m k' := by
  have hkeys : ((fun p : String × α => p.1 == k') ∘
      (fun p : String × α => if p.1 == k then (p.1, f p.2) else p)) =
      (fun p : String × α => p.1 == k') := by
    funext p
    by_cases h : p.1 = k <;> simp [h]
  rw [mapGet, List.find?_map, hkeys]
  by_cases h2 : k' = k
  · subst h2
    rw [if_pos (by simp)]
    cases hf : m.find? (fun p => p.1 == k') with
    | none => simp [mapGet, hf]
    | some q =>
      have hq : q.1 = k' := by simpa using List.find?_some hf
      simp [mapGet, hf, hq]
  · rw [if_neg (by simpa using h2)]
    cases hf : m.find? (fun p => p.1 == k') with
    | none => simp [mapGet, hf]
    | some q =>
      have hq : ¬ q.1 = k := by
        have : q.1 = k' := by simpa using List.find?_some hf
        rw [this]
        exact h2
      simp [mapGet, hf, hq]

/-- `clusterConnCount` is untouched by updates of other clusters. -/
theorem clusterConnCount_updateCluster_ne (t : Topology) (cid : String)
    (f : Cluster → Cluster) (cid' : String) (hne : cid' ≠ cid) :
    clusterConnCount (updateCluster t cid f) cid' =
      clusterConnCount t cid' := by
  simp only [clusterConnCount, updateCluster, mapGet_map_update]
  rw [if_neg (by simpa using hne)]

/-- `clusterConnCount` after an update of the cluster itself. -/
theorem clusterConnCount_updateCluster_self (t : Topology)
    (cid : String) (f : Cluster → Cluster) :
    clusterConnCount (updateCluster t cid f) cid =
      (match mapGet t.clusters cid with
       | some c => (f c).connections.length
       | none => 0) := by
  simp only [clusterConnCount, updateCluster, mapGet_map_update]
  rw [if_pos (by simp)]
  cases mapGet t.clusters cid <;> simp

/-- `setAdd` grows a set by at most one element. -/
theorem setAdd_length_le (s : List String) (x : String) :
    (setAdd s x).length ≤ s.length + 1 := by
  unfold setAdd
  split
  · omega
  · simp

/-- Adding a connection id to one cluster grows that cluster's count by
at most one. -/
theorem clusterConnCount_updateCluster_setAdd (t : Topology)
    (cid : String) (connId : String) :
    clusterConnCount (updateCluster t cid (fun c =>
      { c with connections := setAdd c.connections connId })) cid ≤
      clusterConnCount t cid + 1 := by
  rw [clusterConnCount_updateCluster_self]
  cases h : mapGet t.clusters cid with
  | none => simp [clusterConnCount, h]
  | some c =>
    simp only [clusterConnCount, h]
    exact setAdd_length_le _ _

/-- `_createClusterConnection` never touches the connection count of an
uninvolved cluster. -/
theorem clusterConnCount_createClusterConnection_other (t : Topology)
    (c1 c2 x : String) (h1 : x ≠ c1) (h2 : x ≠ c2) :
    clusterConnCount (createClusterConnection t c1 c2) x =
      clusterConnCount t x := by
  simp only [createClusterConnection]
  by_cases hhas : mapHas t.connections ("conn_" ++ c1 ++ "_" ++ c2)
  · rw [if_pos hhas]
  · rw [if_neg hhas]
    cases hg1 : mapGet t.clusters c1 with
    | none => cases hg2 : mapGet t.clusters c2 <;> simp only [hg1, hg2]
    | some cl1 =>
      cases hg2 : mapGet t.clusters c2 with
      | none => simp only [hg1, hg2]
      | some cl2 =>
        simp only [hg1, hg2]
        rw [clusterConnCount_updateCluster_ne _ _ _ _ h2,
          clusterConnCount_updateCluster_ne _ _ _ _ h1]
        rfl

/-- `_createClusterConnection` grows the initiating cluster's
connection count by at most one. -/
theorem clusterConnCount_createClusterConnection_c1 (t : Topology)
    (c1 c2 : String) (hne : c1 ≠ c2) :
    clusterConnCount (createClusterConnection t c1 c2) c1 ≤
      clusterConnCount t c1 + 1 := by
  simp only [createClusterConnection]
  by_cases hhas : mapHas t.connections ("conn_" ++ c1 ++ "_" ++ c2)
  · rw [if_pos hhas]; omega
  · rw [if_neg hhas]
    cases hg1 : mapGet t.clusters c1 with
    | none => cases hg2 : mapGet t.clusters c2 <;> simp only [hg1, hg2]
        <;> omega
    | some cl1 =>
      cases hg2 : mapGet t.clusters c2 with
      | none => simp only [hg1, hg2]; omega
      | some cl2 =>
        simp only [hg1, hg2]
        rw [clusterConnCount_updateCluster_ne _ _ _ _ hne]
        exact clusterConnCount_updateCluster_setAdd _ _ _

/-- Second components of `orderedPairs` come from the list itself. -/
theorem mem_orderedPairs_snd (l : List String)
    (pr : String × String) (h : pr ∈ orderedPairs l) : pr.2 ∈ l := by
  induction l with
  | nil => simp [orderedPairs] at h
  | cons x xs ih =>
    simp only [orderedPairs, List.mem_append, List.mem_map] at h
    rcases h with ⟨y, hy, he⟩ | h
    · rw [← he]
      exact List.mem_cons_of_mem _ hy
    · exact List.mem_cons_of_mem _ (ih h)

/-- Second components of `orderedPairs (x :: xs)` avoid the head. -/
theorem mem_orderedPairs_snd_tail (x : String) (xs : List String)
    (pr : String × String) (h : pr ∈ orderedPairs (x :: xs)) :
    pr.2 ∈ xs := by
  simp only [orderedPairs, List.mem_append, List.mem_map] at h
  rcases h with ⟨y, hy, he⟩ | h
  · rw [← he]
    exact hy
  · exact mem_orderedPairs_snd xs pr h

/-- One expansion-loop iteration keeps a cluster that never appears as
second endpoint within the cap. -/
theorem expansionStep_cap (cfg : TopoConfig) (t : Topology)
    (pr : String × String) (hId : String) (hsnd : pr.2 ≠ hId)
    (h : clusterConnCount t hId ≤ cfg.maxConnections) :
    clusterConnCount (expansionStep cfg t pr) hId ≤
      cfg.maxConnections := by
  simp only [expansionStep]
  by_cases hcond : (!mapHas t.connections
      ("conn_" ++ pr.1 ++ "_" ++ pr.2) &&
      decide (clusterConnCount t pr.1 < cfg.maxConnections)) = true
  · rw [if_pos hcond]
    have hlt : clusterConnCount t pr.1 < cfg.maxConnections := by
      simp only [Bool.and_eq_true, decide_eq_true_eq] at hcond
      exact hcond.2
    by_cases hp : pr.1 = hId
    · have hne : pr.1 ≠ pr.2 := by
        rw [hp]
        exact fun he => hsnd he.symm
      have hb := clusterConnCount_createClusterConnection_c1 t pr.1
        pr.2 hne
      rw [hp] at hb hlt ⊢
      omega
    · rw [clusterConnCount_createClusterConnection_other t pr.1 pr.2
        hId (fun he => hp he.symm) (fun he => hsnd he.symm)]
      exact h
  · rw [if_neg hcond]
    exact h

/-- The expansion fold preserves the cap for a cluster never appearing
as second endpoint. -/
theorem foldl_expansionStep_cap (cfg : TopoConfig) (hId : String) :
    ∀ (pairs : List (String × String)) (t : Topology),
    (∀ pr ∈ pairs, pr.2 ≠ hId) →
    clusterConnCount t hId ≤ cfg.maxConnections →
    clusterConnCount (pairs.foldl (expansionStep cfg) t) hId ≤
      cfg.maxConnections := by
  intro pairs
  induction pairs with
  | nil => intro t _ h; exact h
  | cons pr pairs ih =>
    intro t hall h
    rw [List.foldl_cons]
    exact ih _ (fun q hq => hall q (List.mem_cons_of_mem _ hq))
      (expansionStep_cap cfg t pr hId (hall pr (List.mem_cons_self _ _))
        h)

/-- C6 (amended): the per-cluster connection ceiling is not an
invariant of the topology operations (see the counterexample: cluster
attachment and isolated-cluster reconnection add connections with no
capacity check, and the expansion loop checks only the initiating
cluster).  What does hold: during `_createExpansionConnections` the
first cluster in map order — which only ever appears as the initiating
endpoint — never exceeds `maxConnections` when it starts at or below
it. -/
theorem expansion_caps_initiating_cluster (cfg : TopoConfig)
    (t : Topology) (hId : String)
    (hhead : (t.clusters.map (·.1)).head? = some hId)
    (hnd : (t.clusters.map (·.1)).Nodup)
    (hle : clusterConnCount t hId ≤ cfg.maxConnections) :
    clusterConnCount (createExpansionConnections cfg t) hId ≤
      cfg.maxConnections := by
  unfold createExpansionConnections
  cases hids : t.clusters.map (·.1) with
  | nil =>
    rw [hids] at hhead
    simp at hhead
  | cons x xs =>
    rw [hids] at hhead hnd
    have hx : x = hId := by simpa using hhead
    have hnotin : hId ∉ xs := by
      rw [← hx]
      exact (List.nodup_cons.mp hnd).1
    exact foldl_expansionStep_cap cfg hId _ t
      (fun pr hpr he =>
        hnotin (he ▸ mem_orderedPairs_snd_tail x xs pr hpr))
      hle

/-- Witness for C6 (amended) at a two-cluster topology under
`maxConnections = 1`: the first cluster stays within the cap across the
expansion pass. -/
theorem expansion_caps_initiating_cluster_witness :
    (topoTwoClusters.clusters.map (·.1)).head? = some "cluster_a" ∧
    (topoTwoClusters.clusters.map (·.1)).Nodup ∧
    clusterConnCount topoTwoClusters "cluster_a" ≤
      cfgTight.maxConnections ∧
    clusterConnCount (createExpansionConnections cfgTight
      topoTwoClusters) "cluster_a" ≤ cfgTight.maxConnections :=
  ⟨by decide, by decide, by decide,
    expansion_caps_initiating_cluster cfgTight topoTwoClusters
      "cluster_a" (by decide) (by decide) (by decide)⟩

end Topo

namespace Network

/-- C9 counterexample: a message with topic `route:forward` is NOT
dispatched to the router's forwarded-message handler — the switch in
`MeshNetwork._handleMessage` has no `route:forward` case, so such
messages fall to the default "Unknown message topic" branch. -/
theorem route_forward_not_dispatched :
    handleMessage "route:forward" = .unknownTopic ∧
    Dispatch.unknownTopic ≠ Dispatch.routeForward := by
  decide

/-- C9 (amended): the façade dispatches exactly five topics
(`protocol:triplet`, `protocol:need`, `protocol:has`, `overlay:sync`,
`topology:update`) to their component handlers, while `route:forward`
falls to the default branch; the router's `handleForwardedMessage`
itself behaves as described — it increments `currentHop`, delivers and
strips the routing metadata at the destination, and otherwise forwards
the message (carrying the incremented counter) to `path[currentHop]`. -/
theorem dispatch_and_forwarding (selfId : String) (m : FwdMessage)
    (r : RouteMeta) (hr : m.route = some r) :
    handleMessage "protocol:triplet" = .peerTriplet ∧
    handleMessage "protocol:need" = .peerNeed ∧
    handleMessage "protocol:has" = .peerHas ∧
    handleMessage "overlay:sync" = .peerOverlay ∧
    handleMessage "topology:update" = .topologyUpdate ∧
    handleMessage "route:forward" = .unknownTopic ∧
    (r.destination = selfId →
      handleForwardedMessage selfId m =
        .delivered { m with route := none }) ∧
    (r.destination ≠ selfId → r.currentHop + 1 < r.totalHops →
      r.currentHop + 1 < r.path.length →
      handleForwardedMessage selfId m =
        .forwardedTo (r.path.getD (r.currentHop + 1) "")
          { m with route := some { r with currentHop := r.currentHop + 1 } }) := by
  refine ⟨by decide, by decide, by decide, by decide, by decide,
    by decide, ?_, ?_⟩
  · intro hdest
    simp [handleForwardedMessage, hr, hdest]
  · intro hdest hhop hpath
    have h1 : ¬ (r.currentHop + 1 ≥ r.totalHops) := Nat.not_le.mpr hhop
    have h2 : ¬ (r.currentHop + 1 ≥ r.path.length) :=
      Nat.not_le.mpr hpath
    simp [handleForwardedMessage, hr, hdest, h1, h2]

/-- Witness for C9 (amended): a message addressed to this node is
delivered with its metadata stripped; a message for a farther node is
forwarded to `path[1]` with `currentHop = 1`. -/
theorem dispatch_and_forwarding_witness :
    handleForwardedMessage "node-self" msgToSelf =
      .delivered { msgToSelf with route := none } ∧
    handleForwardedMessage "node-self" msgThrough =
      .forwardedTo "b" { msgThrough with route := some routeThroughNext } := by
  constructor
  · exact (dispatch_and_forwarding "node-self" msgToSelf _
      rfl).2.2.2.2.2.2.1 rfl
  · exact (dispatch_and_forwarding "node-self" msgThrough _
      rfl).2.2.2.2.2.2.2 (by decide) (by decide) (by decide)

end Network

namespace PortExpansion

/-- The forwarded budget never grows at a hop. -/
theorem onReceive_budget_le (hardLimit k B : ℕ) (n : PortNode)
    (b b' : ℕ) (h : (onReceive hardLimit k B n b).2 = some b') :
    b' ≤ b := by
  unfold onReceive at h
  by_cases h0 : 0 < b
  · rw [if_pos h0] at h
    cases hb : isBusy n with
    | true =>
      rw [hb] at h
      simp only [if_true] at h
      by_cases hc : canExpandPorts hardLimit k n = true
      · rw [if_pos hc] at h
        simp at h
        omega
      · rw [if_neg hc] at h
        simp at h
    | false =>
      rw [hb] at h
      simp at h
      omega
  · rw [if_neg h0] at h
    cases hb : isBusy n with
    | true => rw [hb] at h; simp at h
    | false => rw [hb] at h; simp at h; omega

/-- The budget trace of a propagation starts with the initial budget. -/
theorem propagate_trace_head (hardLimit k B : ℕ)
    (nodes : List PortNode) (b : ℕ) :
    (propagate hardLimit k B nodes b).1.head? = some b := by
  cases nodes with
  | nil => rfl
  | cons n ns =>
    unfold propagate
    cases h : onReceive hardLimit k B n b with
    | mk n' ob => cases ob <;> simp

/-- C8: the port-expansion discipline of the jitterbug rule.  `open_0`
never triggers expansion at any node (all node states are unchanged);
the budget carried along any forwarding path is non-increasing; a
non-busy node with positive budget decrements it exactly once and its
state is untouched; a busy node that can expand forwards the budget
unchanged and its total port count stays within the hard ceiling; along
a path of non-busy nodes the budget drops by exactly one per hop. -/
theorem port_expansion_budget_discipline (hardLimit k B : ℕ) :
    (∀ nodes : List PortNode,
      (propagate hardLimit k B nodes 0).2 = nodes) ∧
    (∀ (nodes : List PortNode) (b : ℕ),
      List.Chain' (fun x y => y ≤ x)
        (propagate hardLimit k B nodes b).1) ∧
    (∀ (n : PortNode) (b : ℕ), 0 < b → isBusy n = false →
      onReceive hardLimit k B n b = (n, some (b - 1))) ∧
    (∀ (n : PortNode) (b : ℕ), 0 < b → isBusy n = true →
      canExpandPorts hardLimit k n = true →
      (onReceive hardLimit k B n b).2 = some b ∧
      (onReceive hardLimit k B n b).1.portsTotal +
        (onReceive hardLimit k B n b).1.expandedPorts ≤ hardLimit) ∧
    (∀ (nodes : List PortNode) (b : ℕ),
      (∀ n ∈ nodes, isBusy n = false) → nodes.length ≤ b →
      (propagate hardLimit k B nodes b).1 =
        (List.range (nodes.length + 1)).map (fun i => b - i)) := by
  have hrecv0 : ∀ n : PortNode,
      onReceive hardLimit k B n 0 = (n, if isBusy n then none
        else some 0) := by
    intro n
    unfold onReceive
    rw [if_neg (by omega)]
    cases isBusy n <;> simp
  refine ⟨?_, ?_, ?_, ?_, ?_⟩
  · intro nodes
    induction nodes with
    | nil => rfl
    | cons n ns ih =>
      unfold propagate
      rw [hrecv0 n]
      cases hb : isBusy n with
      | true => simp
      | false => simp [ih]
  · intro nodes
    induction nodes with
    | nil => intro b; simp [propagate]
    | cons n ns ih =>
      intro b
      unfold propagate
      cases h : onReceive hardLimit k B n b with
      | mk n' ob =>
        cases ob with
        | none => simp
        | some b' =>
          simp only []
          have hle : b' ≤ b :=
            onReceive_budget_le hardLimit k B n b b' (by rw [h])
          refine List.chain'_cons'.mpr ⟨?_, ih b'⟩
          intro y hy
          rw [propagate_trace_head hardLimit k B ns b'] at hy
          cases hy
          exact hle
  · intro n b h0 hb
    unfold onReceive
    rw [if_pos h0, hb]
    simp
  · intro n b h0 hb hc
    have hc' : n.portsTotal + n.expandedPorts + k ≤ hardLimit := by
      simpa [canExpandPorts] using hc
    constructor
    · simp [onReceive, h0, hb, hc]
    · simp [onReceive, h0, hb, hc]
      omega
  · intro nodes
    induction nodes with
    | nil => intro b _ _; simp [propagate, List.range_succ]
    | cons n ns ih =>
      intro b hall hlen
      have hb : isBusy n = false := hall n (List.mem_cons_self _ _)
      have hlen' : ns.length + 1 ≤ b := hlen
      have h0 : 0 < b := by omega
      unfold propagate
      rw [show onReceive hardLimit k B n b = (n, some (b - 1)) by
        unfold onReceive; rw [if_pos h0, hb]; simp]
      simp only []
      rw [ih (b - 1) (fun q hq => hall q (List.mem_cons_of_mem _ hq))
        (by omega)]
      simp only [List.length_cons]
      conv_rhs => rw [List.range_succ_eq_map]
      simp only [List.map_cons, List.map_map, Nat.sub_zero]
      refine congrArg (List.cons b) ?_
      apply List.map_congr_left
      intro i _
      simp only [Function.comp_apply]
      omega

/-- Witness for C8 at a concrete chain (two non-busy hops, then a busy
expandable node) with `HARD_LIMIT = 10`, `k = 2`, `B = 5`. -/
theorem port_expansion_budget_discipline_witness :
    (propagate 10 2 5 chainMixed 0).2 = chainMixed ∧
    List.Chain' (fun x y => y ≤ x) (propagate 10 2 5 chainMixed 3).1 ∧
    onReceive 10 2 5 (chainMixed.getD 0 ⟨0, 0, 0, 0⟩) 3 =
      (chainMixed.getD 0 ⟨0, 0, 0, 0⟩, some 2) ∧
    (onReceive 10 2 5 (chainMixed.getD 2 ⟨0, 0, 0, 0⟩) 1).2 = some 1 ∧
    (propagate 10 2 5 (chainMixed.take 2) 3).1 = [3, 2, 1] := by
  have h := port_expansion_budget_discipline 10 2 5
  refine ⟨h.1 chainMixed, h.2.1 chainMixed 3, ?_, ?_, ?_⟩
  · exact h.2.2.1 (chainMixed.getD 0 ⟨0, 0, 0, 0⟩) 3 (by decide) (by decide)
  · exact (h.2.2.2.1 (chainMixed.getD 2 ⟨0, 0, 0, 0⟩) 1 (by decide)
      (by decide) (by decide)).1
  · have := h.2.2.2.2 (chainMixed.take 2) 3 (by decide) (by decide)
    rw [this]
    decide

end PortExpansion

end HasNeeds
